import Mathlib

/-!
Verification of the HireLens recruitment backend against its
natural-language specification.

The Python sources are shallowly embedded: pure text-processing
functions become Lean functions on `List Char` / `String`, Python
floats become exact rationals, Python dict keys that may be absent
become `Option` fields, and every Flask route that mutates the
database or the Redis cache becomes a pure function from the relevant
state record to an updated state record plus an outcome value.
Keys absent from a dict and keys present with value `None` are folded
into `Option.none` whenever the code distinguishes them only through
Python truthiness.
-/

namespace HireLens

/-- Word characters of the regular-expression class backslash-w,
restricted to the ASCII texts handled here: letters, digits and the
underscore. -/
def isWordChar (c : Char) : Bool :=
  c.isAlpha || c.isDigit || c = '_'

/-- Python whitespace as recognised by str.strip and the regex class
backslash-s (space, tab, newline, carriage return, vertical tab, form
feed). -/
def isPySpace (c : Char) : Bool :=
  c = ' ' || c = '\t' || c = '\n' || c = '\r' || c = '\x0b' || c = '\x0c'

/-- Python str.lower, on the ASCII texts handled here. -/
def pyLower (s : List Char) : List Char := s.map Char.toLower

/-- Python str.upper, on the ASCII texts handled here. -/
def pyUpper (s : List Char) : List Char := s.map Char.toUpper

/-- Python str.strip: drop leading and trailing whitespace. -/
def pyStrip (s : List Char) : List Char :=
  ((s.dropWhile isPySpace).reverse.dropWhile isPySpace).reverse

/-- Whether the second list starts with the first. -/
def startsWithList : List Char → List Char → Bool
  | [], _ => true
  | _ :: _, [] => false
  | p :: ps, c :: cs => p = c && startsWithList ps cs

/-- Python substring containment, pattern first: pat in s. -/
def containsSub (pat : List Char) : List Char → Bool
  | [] => startsWithList pat []
  | c :: rest => startsWithList pat (c :: rest) || containsSub pat rest

/-- Python string less-than: lexicographic comparison by code point. -/
def strLtList : List Char → List Char → Bool
  | [], [] => false
  | [], _ :: _ => true
  | _ :: _, [] => false
  | a :: as, b :: bs =>
    if a.toNat < b.toNat then true
    else if b.toNat < a.toNat then false
    else strLtList as bs

/-- Decimal digit test (the texts handled here are ASCII, where the
regex class backslash-d is exactly the digits 0 to 9). -/
def isDigitChar (c : Char) : Bool := c.isDigit

/-- Value of a digit string. -/
def digitsToNat (ds : List Char) : Nat :=
  ds.foldl (fun n c => 10 * n + (c.toNat - '0'.toNat)) 0

namespace ResumeParser

/-!
Embedding of services/resume_parser.py. Python float results are
modelled as exact rationals; the numbers produced by the extractor are
short decimal literals, which floats represent exactly at the
magnitudes exercised here.
-/

/-- One attempt of the experience regex at the start of the input:
digits, an optional dot, more digits (the capture group), optional
whitespace, an optional plus sign, optional whitespace, the literal
year with an optional trailing s. Returns the capture group and the
suffix after the whole match. For this pattern a maximal-munch reading
of each greedy piece agrees with backtracking semantics: digits can
never satisfy the later literal, and a consumed dot that leads to
failure leaves the dot as the next character, which fails the tail as
well. -/
def matchExpAt (s : List Char) : Option (List Char × List Char) :=
  let d1 := s.takeWhile isDigitChar
  if d1.isEmpty then none
  else
    let r1 := s.dropWhile isDigitChar
    let dotted : Bool × List Char :=
      match r1 with
      | '.' :: rest => (true, rest)
      | _ => (false, r1)
    let r2 := dotted.2
    let d2 := r2.takeWhile isDigitChar
    let r3 := r2.dropWhile isDigitChar
    let r4 := r3.dropWhile isPySpace
    let r5 : List Char :=
      match r4 with
      | '+' :: rest => rest
      | _ => r4
    let r6 := r5.dropWhile isPySpace
    match r6 with
    | 'y' :: 'e' :: 'a' :: 'r' :: rest =>
      let rest2 : List Char :=
        match rest with
        | 's' :: rr => rr
        | _ => rest
      some (d1 ++ (if dotted.1 then ['.'] else []) ++ d2, rest2)
    | _ => none

/-- re.findall over the experience pattern: scan left to right, record
the capture group of each leftmost match and resume after it. The fuel
argument is the length of the scanned text, which bounds the number of
scanning steps since every match consumes at least one character. -/
def expMatchesAux : Nat → List Char → List (List Char)
  | 0, _ => []
  | _ + 1, [] => []
  | fuel + 1, c :: rest =>
    match matchExpAt (c :: rest) with
    | some (g, after) => g :: expMatchesAux fuel after
    | none => expMatchesAux fuel rest

/-- All capture groups of the experience pattern in the given text. -/
def expMatches (s : List Char) : List (List Char) :=
  expMatchesAux s.length s

/-- Python max over a list of strings: lexicographic by code point,
returning the first maximal element. -/
def pyMaxStr : List (List Char) → List Char
  | [] => []
  | x :: xs => xs.foldl (fun m y => if strLtList m y then y else m) x

/-- Python float applied to a capture group of the experience pattern:
digits, optionally followed by a dot and more digits. -/
def floatOfGroup (g : List Char) : ℚ :=
  let ip := g.takeWhile isDigitChar
  let rest := g.dropWhile isDigitChar
  let fp : List Char :=
    match rest with
    | '.' :: ds => ds
    | _ => []
  (digitsToNat ip : ℚ) + (digitsToNat fp : ℚ) / (10 : ℚ) ^ fp.length

/-- Embedding of ResumeParser._extract_experience_years: findall over
the year pattern on the lowered text, then float(max(matches)) where
max compares the matched digit strings as Python strings, and 0.0 when
nothing matches. -/
def extract_experience_years (text : String) : ℚ :=
  let lower := pyLower text.toList
  let ms := expMatchesAux lower.length lower
  match ms with
  | [] => 0
  | _ :: _ => floatOfGroup (pyMaxStr ms)

/-- Word-ness of an optional character; out-of-range positions count
as non-word, exactly as the regex boundary assertion treats the ends
of the text. -/
def optWord : Option Char → Bool
  | none => false
  | some c => isWordChar c

/-- The regex boundary assertion between two adjacent positions holds
when exactly one side is a word character. -/
def boundaryB (a b : Option Char) : Bool := optWord a != optWord b

/-- Match of the anchored pattern (boundary, literal, boundary) at the
current position: prev is the character right before the position, s
the text from the position on. -/
def matchesWwAt (pat : List Char) (prev : Option Char) (s : List Char) : Bool :=
  startsWithList pat s &&
  boundaryB prev pat.head? &&
  boundaryB pat.getLast? ((s.drop pat.length).head?)

/-- Scan of the anchored pattern over every position of the text,
carrying the preceding character. -/
def wwSearchAux (pat : List Char) : Option Char → List Char → Bool
  | prev, [] => matchesWwAt pat prev []
  | prev, c :: rest => matchesWwAt pat prev (c :: rest) || wwSearchAux pat (some c) rest

/-- re.search of the pattern wrapped in word boundaries, as built by
the skill matcher for every taxonomy pattern. -/
def wwSearch (pat s : List Char) : Bool := wwSearchAux pat none s

/-- The skill taxonomy of ResumeParser._extract_skills, in source
order: canonical skill name paired with its synonym patterns. The
pattern of the R entry is the Python string with the backslash-b
escapes, which Python reads as backspace characters (U+0008), not as
regex word boundaries. -/
def skill_patterns : List (String × List String) := [
  ("Python", ["python", "py"]),
  ("Java", ["java"]),
  ("JavaScript", ["javascript", "js", "ecmascript"]),
  ("TypeScript", ["typescript", "ts"]),
  ("C++", ["c++", "cpp", "cplusplus"]),
  ("C#", ["c#", "csharp", "c sharp"]),
  ("PHP", ["php"]),
  ("Ruby", ["ruby", "rails"]),
  ("Go", ["golang", "go"]),
  ("Rust", ["rust"]),
  ("Swift", ["swift"]),
  ("Kotlin", ["kotlin"]),
  ("Scala", ["scala"]),
  ("R", ["\x08r\x08"]),
  ("React", ["react", "reactjs", "react.js"]),
  ("Angular", ["angular", "angularjs"]),
  ("Vue", ["vue", "vuejs", "vue.js"]),
  ("Next.js", ["next.js", "nextjs", "next"]),
  ("Node.js", ["node", "nodejs", "node.js"]),
  ("Express", ["express", "expressjs", "express.js"]),
  ("Django", ["django"]),
  ("Flask", ["flask"]),
  ("FastAPI", ["fastapi", "fast api"]),
  ("Spring", ["spring", "spring boot", "springboot"]),
  ("ASP.NET", ["asp.net", "aspnet", "asp net"]),
  ("HTML", ["html", "html5"]),
  ("CSS", ["css", "css3"]),
  ("Tailwind", ["tailwind", "tailwindcss"]),
  ("Bootstrap", ["bootstrap"]),
  ("jQuery", ["jquery"]),
  ("MySQL", ["mysql", "my sql"]),
  ("PostgreSQL", ["postgresql", "postgres", "psql"]),
  ("MongoDB", ["mongodb", "mongo"]),
  ("Redis", ["redis"]),
  ("Oracle", ["oracle", "oracle db"]),
  ("SQL Server", ["sql server", "mssql", "ms sql"]),
  ("SQLite", ["sqlite"]),
  ("Cassandra", ["cassandra"]),
  ("Elasticsearch", ["elasticsearch", "elastic search", "elastic"]),
  ("DynamoDB", ["dynamodb", "dynamo"]),
  ("AWS", ["aws", "amazon web services"]),
  ("Azure", ["azure", "microsoft azure"]),
  ("GCP", ["gcp", "google cloud", "google cloud platform"]),
  ("Docker", ["docker", "containerization"]),
  ("Kubernetes", ["kubernetes", "k8s"]),
  ("Jenkins", ["jenkins"]),
  ("CI/CD", ["ci/cd", "cicd", "continuous integration", "continuous deployment"]),
  ("Terraform", ["terraform"]),
  ("Ansible", ["ansible"]),
  ("Git", ["git", "github", "gitlab", "bitbucket"]),
  ("Linux", ["linux", "unix"]),
  ("REST API", ["rest", "rest api", "restful", "restful api", "rest apis"]),
  ("GraphQL", ["graphql", "graph ql"]),
  ("Microservices", ["microservices", "micro services", "microservice"]),
  ("SOAP", ["soap"]),
  ("gRPC", ["grpc"]),
  ("Machine Learning", ["machine learning", "ml", "artificial intelligence", "ai"]),
  ("Deep Learning", ["deep learning", "neural network", "neural networks"]),
  ("TensorFlow", ["tensorflow", "tensor flow"]),
  ("PyTorch", ["pytorch", "torch"]),
  ("Scikit-learn", ["scikit-learn", "sklearn", "scikit learn"]),
  ("Pandas", ["pandas"]),
  ("NumPy", ["numpy", "np"]),
  ("Keras", ["keras"]),
  ("NLP", ["nlp", "natural language processing"]),
  ("Computer Vision", ["computer vision", "cv", "image processing"]),
  ("Jest", ["jest"]),
  ("Pytest", ["pytest", "py.test"]),
  ("JUnit", ["junit"]),
  ("Selenium", ["selenium"]),
  ("Cypress", ["cypress"]),
  ("Mocha", ["mocha"]),
  ("Agile", ["agile", "scrum", "kanban"]),
  ("JIRA", ["jira"]),
  ("Postman", ["postman"])]

/-- The loop body of _extract_skills for a single pattern: the source
first asks whether the pattern string starts with the two characters
backslash b and, if so, searches it as a raw regex. No pattern of the
embedded taxonomy starts with those two characters (the R entry holds
backspace characters instead), so that branch is unreachable here and
is modelled as no match; every pattern takes the else branch, which
escapes the pattern and searches it wrapped in word boundaries. -/
def skillPatternHit (pat : List Char) (lowerText : List Char) : Bool :=
  if pat.take 2 = ['\\', 'b'] then false
  else wwSearch pat lowerText

/-- Names of the taxonomy entries with at least one matching pattern,
in taxonomy order; this is the content of the found_skills set of the
source. -/
def foundSkillsList (lowerText : List Char) : List String :=
  skill_patterns.filterMap fun e =>
    if e.2.any (fun p => skillPatternHit p.toList lowerText) then some e.1 else none

/-- Python string less-or-equal, from the code-point comparison. -/
def strLeStr (a b : String) : Bool := !strLtList b.toList a.toList

/-- Ordered insertion for the sort used below. -/
def insertStr (x : String) : List String → List String
  | [] => [x]
  | y :: ys => if strLeStr x y then x :: y :: ys else y :: insertStr x ys

/-- Python sorted on a list of distinct strings: the sorted
permutation under code-point comparison. -/
def sortStrs : List String → List String
  | [] => []
  | x :: xs => insertStr x (sortStrs xs)

/-- Embedding of ResumeParser._extract_skills: lower the text, collect
the canonical names whose pattern list has a hit, deduplicated by the
set and returned sorted. -/
def extract_skills (text : String) : List String :=
  sortStrs (foundSkillsList (pyLower text.toList))

/-- Modelled from the spec wording of the skill-matching property: the
text contains the pattern as a whole word when the pattern occurs with
no word character immediately on either side. This is the plain
reading of whole-word containment against which the boundary-anchored
search of the code is compared. -/
def containsWholeWord (pat text : List Char) : Prop :=
  ∃ a b, text = a ++ pat ++ b ∧ optWord a.getLast? = false ∧ optWord b.head? = false

end ResumeParser

namespace AIScorer

/-!
Embedding of AIScorer._rule_based_score and its helpers from
services/ai_scorer.py. Python float arithmetic is modelled with exact
rationals; the explanation string of the result is projected away, no
claim mentions it.
-/

/-- The synonym table of _rule_based_score, in source order. -/
def skill_synonyms : List (String × List String) := [
  ("javascript", ["js", "javascript", "ecmascript"]),
  ("typescript", ["ts", "typescript"]),
  ("python", ["py", "python"]),
  ("rest api", ["rest", "restful", "rest api", "restful api", "rest apis"]),
  ("mysql", ["mysql", "my sql"]),
  ("postgresql", ["postgres", "postgresql", "psql"]),
  ("mongodb", ["mongo", "mongodb"]),
  ("node.js", ["node", "nodejs", "node.js"]),
  ("react", ["react", "reactjs", "react.js"]),
  ("angular", ["angular", "angularjs"]),
  ("vue", ["vue", "vuejs", "vue.js"]),
  ("machine learning", ["ml", "machine learning", "ai", "artificial intelligence"]),
  ("docker", ["docker", "containerization"]),
  ("kubernetes", ["k8s", "kubernetes"]),
  ("flask", ["flask"]),
  ("django", ["django"]),
  ("spring", ["spring", "spring boot", "springboot"]),
  ("aws", ["aws", "amazon web services"]),
  ("azure", ["azure", "microsoft azure"]),
  ("gcp", ["gcp", "google cloud"])]

/-- The candidate facts read by the scorer, as extracted by the parser
or defaulted by dict get: absent name, email, phone, location are
None; absent skills, projects, certifications default to empty lists;
absent experience defaults to 0 and absent education to the empty
string. -/
structure ParsedData where
  name : Option String := none
  email : Option String := none
  phone : Option String := none
  location : Option String := none
  skills : List String := []
  experience_years : ℚ := 0
  education_level : String := ""
  projects : List String := []
  certifications : List String := []
deriving DecidableEq

/-- The job fields read by the scorer; skills_required folds the
Python None into the empty list exactly as the source does with the
or-empty-list guard, experience_required keeps None distinct since the
parser checks its truthiness. -/
structure JobRec where
  skills_required : List String := []
  experience_required : Option String := none
deriving DecidableEq

/-- Python s.lower().strip() as applied to skill strings. -/
def pyNorm (s : String) : String := String.mk (pyStrip (pyLower s.toList))

/-- dict.get on the synonym table with the singleton default used by
the source. -/
def synLookup (key : String) : List String :=
  match skill_synonyms.find? (fun e => e.1 == key) with
  | some e => e.2
  | none => [key]

/-- The inner matching loop for one required skill: some candidate
skill equals the lowered requirement, or shares a substring relation
with one of its synonyms in either direction. -/
def reqSkillMatched (candidate_skills : List String) (req_l : String)
    (synonyms : List String) : Bool :=
  candidate_skills.any fun cand =>
    cand == req_l || synonyms.any fun syn =>
      containsSub syn.toList cand.toList || containsSub cand.toList syn.toList

/-- First run of digits in the text, as found by re.search of a digit
group; 0 when no digit occurs. -/
def firstIntIn : List Char → Nat
  | [] => 0
  | c :: rest =>
    if isDigitChar c then digitsToNat ((c :: rest).takeWhile isDigitChar)
    else firstIntIn rest

/-- Embedding of AIScorer._parse_experience_requirement: 0 for a falsy
input (None or empty), otherwise the first integer found, 0 when
none. -/
def parse_experience_requirement (exp_str : Option String) : Nat :=
  match exp_str with
  | none => 0
  | some s => if s == "" then 0 else firstIntIn s.toList

/-- The education lookup of the scorer: the level table applied to the
lowered education string, defaulting to 1. -/
def eduLevelValue (education_level : String) : Nat :=
  match ([("phd", 4), ("masters", 3), ("bachelors", 2), ("unknown", 1)] :
      List (String × Nat)).find?
      (fun e => e.1 == String.mk (pyLower education_level.toList)) with
  | some e => e.2
  | none => 1

/-- Scoring output; the explanation string is projected away. -/
structure ScoreResult where
  score : ℚ
  matched_skills : List String
  missing_skills : List String
deriving DecidableEq

/-- Whether one required skill is matched against the normalised
candidate skills, as decided by the inner loop of
_rule_based_score. -/
def skillMatchPred (parsed : ParsedData) (r : String) : Bool :=
  reqSkillMatched (parsed.skills.map pyNorm) (pyNorm r) (synLookup (pyNorm r))

/-- The matched_skills list accumulated by the skills loop: the
required skills passing the match predicate, in requirement order. -/
def matchedSkills (parsed : ParsedData) (job : JobRec) : List String :=
  job.skills_required.filter (skillMatchPred parsed)

/-- The missing_skills list accumulated by the skills loop. -/
def missingSkills (parsed : ParsedData) (job : JobRec) : List String :=
  job.skills_required.filter fun r => !skillMatchPred parsed r

/-- The skills contribution: full 50 when no skill is required,
otherwise the matched fraction of 50. -/
def skillsPoints (parsed : ParsedData) (job : JobRec) : ℚ :=
  match job.skills_required with
  | [] => 50
  | _ :: _ => ((matchedSkills parsed job).length : ℚ) / (job.skills_required.length : ℚ) * 50

/-- The experience contribution: full 30 when no requirement parses,
otherwise 30, 20, 10 or 0 by the fraction of the requirement held. The
0.7 and 0.5 factors are exact rationals here where the source
multiplies binary floats; no claim settled against this model depends
on that rounding. -/
def experiencePoints (parsed : ParsedData) (job : JobRec) : ℚ :=
  if parse_experience_requirement job.experience_required ≠ 0 then
    if (parse_experience_requirement job.experience_required : ℚ) ≤ parsed.experience_years
    then 30
    else if (parse_experience_requirement job.experience_required : ℚ) * (7 / 10) ≤
        parsed.experience_years then 20
    else if (parse_experience_requirement job.experience_required : ℚ) * (1 / 2) ≤
        parsed.experience_years then 10
    else 0
  else 30

/-- The education contribution: 10 from a Bachelors-level value up. -/
def educationPoints (parsed : ParsedData) : ℚ :=
  if (2 : Nat) ≤ eduLevelValue parsed.education_level then 10 else 0

/-- The projects-or-certifications contribution. -/
def projectPoints (parsed : ParsedData) : ℚ :=
  if !parsed.projects.isEmpty || !parsed.certifications.isEmpty then 10 else 0

/-- Embedding of AIScorer._rule_based_score. The source accumulates
the four contributions into score in this order and finally caps the
sum at 100; the accumulation is decomposed here into the four
component functions above, whose sum is the accumulated value. -/
def rule_based_score (parsed : ParsedData) (job : JobRec) : ScoreResult :=
  { score := min (skillsPoints parsed job + experiencePoints parsed job +
      educationPoints parsed + projectPoints parsed) 100
    matched_skills := matchedSkills parsed job
    missing_skills := missingSkills parsed job }

end AIScorer

namespace AIInterviews

/-!
Embedding of services/ai_interview_service.py and the stateful routes
of routes/ai_interviews.py. A question dict becomes a record whose
Option fields model key presence; keys absent and keys set to None are
folded together since the routes test them only through truthiness.
The external AI calls are oracle parameters: a per-answer analysis
oracle returning the parsed response or none for a raised exception,
and an aggregate-analysis value with the same reading. Database commit
plus Redis effects of a route become the returned record.
-/

/-- Python truthiness of an optional string: false for an absent key,
None, or the empty string. -/
def pyTruthyStr : Option String → Bool
  | none => false
  | some s => s != ""

/-- Python truthiness of an optional number: false for an absent key,
None, or zero. -/
def pyTruthyNum : Option ℚ → Bool
  | none => false
  | some x => x != 0

/-- A stored interview question. -/
structure Question where
  id : Nat
  question : String := ""
  category : Option String := none
  difficulty : Option String := none
  expected_points : Option (List String) := none
  max_score : Option ℚ := none
  answer : Option String := none
  answered_at : Option Nat := none
  score : Option ℚ := none
  feedback : Option String := none
  covered_points : Option (List String) := none
  missed_points : Option (List String) := none
  strengths : Option (List String) := none
  improvements : Option (List String) := none
deriving DecidableEq

/-- The parsed JSON of a successful per-answer analysis call; each
field is read with a defaulting get by the caller. -/
structure AnswerAnalysis where
  score : Option ℚ := none
  feedback : Option String := none
  covered_points : Option (List String) := none
  missed_points : Option (List String) := none
  strengths : Option (List String) := none
  improvements : Option (List String) := none
deriving DecidableEq

/-- One iteration of the per-question analysis loop of the complete
route: a question with a truthy score is left untouched; otherwise the
analysis call either fills the analysis fields through defaulting gets
or, when it raises, sets score 0 with placeholder feedback. -/
def applyAnswerAnalysis (oracle : Question → Option AnswerAnalysis) (q : Question) : Question :=
  if pyTruthyNum q.score then q
  else
    match oracle q with
    | some a =>
      { q with score := some (a.score.getD 0), feedback := some (a.feedback.getD "")
               covered_points := some (a.covered_points.getD [])
               missed_points := some (a.missed_points.getD [])
               strengths := some (a.strengths.getD [])
               improvements := some (a.improvements.getD []) }
    | none => { q with score := some 0, feedback := some "Analysis unavailable" }

/-- Total score as summed by analyze_complete_interview, with the
defaulting get of 0. -/
def totalScore (qs : List Question) : ℚ := (qs.map fun q => q.score.getD 0).sum

/-- Maximum possible score, with the defaulting get of 20. -/
def maxPossible (qs : List Question) : ℚ := (qs.map fun q => q.max_score.getD 20).sum

/-- The percentage computed by analyze_complete_interview, 0 when the
maximum is not positive. -/
def percentage (qs : List Question) : ℚ :=
  if 0 < maxPossible qs then totalScore qs / maxPossible qs * 100 else 0

/-- The parsed JSON of a successful aggregate analysis call; only the
keys the completion route reads back are kept, each as an Option since
the model may omit them. The summary string is projected away together
with ai_feedback, no claim mentions them. -/
structure AggAI where
  percentage : Option ℚ := none
  recommendation : Option String := none
deriving DecidableEq

/-- The dict returned by analyze_complete_interview, restricted to the
keys the completion route reads. -/
structure AggResult where
  total_score : ℚ
  max_possible : ℚ
  percentage : Option ℚ
  recommendation : Option String
  questions_analyzed : Nat
deriving DecidableEq

/-- The recommendation of the except branch of
analyze_complete_interview: MAYBE from fifty percent up, NO_HIRE
below. -/
def fallbackRecommendation (qs : List Question) : String :=
  if 50 ≤ percentage qs then "MAYBE" else "NO_HIRE"

/-- Embedding of AIInterviewService.analyze_complete_interview: on a
successful AI call the parsed response with the computed totals added;
when the call raises, the deterministic fallback dict. -/
def analyze_complete_interview (qs : List Question) (ai : Option AggAI) : AggResult :=
  match ai with
  | some a =>
    { total_score := totalScore qs, max_possible := maxPossible qs
      percentage := a.percentage, recommendation := a.recommendation
      questions_analyzed := qs.length }
  | none =>
    { total_score := totalScore qs, max_possible := maxPossible qs
      percentage := some (percentage qs)
      recommendation := some (fallbackRecommendation qs)
      questions_analyzed := qs.length }

/-- Modelled from the spec: the stated recommendation threshold bands,
STRONG_HIRE from 85 percent, HIRE from 70, MAYBE from 50, NO_HIRE
below. -/
def specRecommendationBands (p : ℚ) : String :=
  if 85 ≤ p then "STRONG_HIRE"
  else if 70 ≤ p then "HIRE"
  else if 50 ≤ p then "MAYBE"
  else "NO_HIRE"

/-- The interview row fields touched by the embedded routes. -/
structure Interview where
  interview_status : String
  ai_questions : Option (List Question) := none
  ai_score : Option ℚ := none
  ai_analysis : Option AggResult := none
  ai_responses : Option (List (Nat × Option String × ℚ)) := none
  completed_at : Option Nat := none
  updated_at : Option Nat := none
  access_code : Option String := none
deriving DecidableEq

/-- Replace the first question carrying the given id, as the source
mutates the first dict found by its scan. -/
def updateFirstQuestion (qid : Nat) (f : Question → Question) : List Question → List Question
  | [] => []
  | q :: qs => if q.id == qid then f q :: qs else q :: updateFirstQuestion qid f qs

/-- Outcome of the submit-answer route. -/
inductive SubmitOutcome where
  | ok (question_id : Nat)
  | badRequest
  | questionsNotFound
  | questionNotFound
deriving DecidableEq

/-- Embedding of the submit-answer route for an existing interview: a
falsy question id or an answer empty after stripping is a bad request;
missing questions or an unknown id are not found; otherwise the answer
and its timestamp are stored on the question and interview_status is
set to in_progress. The route never consults the current
interview_status. -/
def submit_answer (iv : Interview) (question_id : Nat) (rawAnswer : String)
    (now : Nat) : Interview × SubmitOutcome :=
  let answer := String.mk (pyStrip rawAnswer.toList)
  if question_id == 0 || answer == "" then (iv, .badRequest)
  else
    match iv.ai_questions with
    | none => (iv, .questionsNotFound)
    | some qs =>
      if qs.any fun q => q.id == question_id then
        let qs2 := updateFirstQuestion question_id
          (fun q => { q with answer := some answer, answered_at := some now }) qs
        ({ iv with ai_questions := some qs2, interview_status := "in_progress"
                   updated_at := some now },
         .ok question_id)
      else (iv, .questionNotFound)

/-- Response of the get-questions route; the job and resume display
fields are projected away, no claim mentions them. -/
structure QuestionsResp where
  interview_status : String
  questions : List Question
  total_questions : Nat
deriving DecidableEq

/-- Outcome of the get-questions route. -/
inductive GetQuestionsOutcome where
  | ok (resp : QuestionsResp)
  | notFound
deriving DecidableEq

/-- Embedding of the get-questions route for an existing interview:
not found without stored questions, otherwise the stored questions
with the expected_points key popped from every one. -/
def get_questions (iv : Interview) : GetQuestionsOutcome :=
  match iv.ai_questions with
  | none => .notFound
  | some qs =>
    let qs2 := qs.map fun q => { q with expected_points := none }
    .ok { interview_status := iv.interview_status, questions := qs2
          total_questions := qs2.length }

/-- Outcome of the complete route. -/
inductive CompleteOutcome where
  | questionsNotFound
  | incomplete (unanswered : List Nat)
  | done (ai_score : ℚ) (recommendation : Option String)
deriving DecidableEq

/-- Embedding of the complete route for an existing interview: fails
listing the ids of the questions with a falsy answer when any exist,
before any write; otherwise runs the per-question analysis loop, then
the aggregate analysis, and commits the rewritten questions, the
responses, the analysis, the score, completed status and timestamps.
The route never consults the current interview_status. -/
def complete_interview (iv : Interview) (oracle : Question → Option AnswerAnalysis)
    (aggAI : Option AggAI) (now : Nat) : Interview × CompleteOutcome :=
  match iv.ai_questions with
  | none => (iv, .questionsNotFound)
  | some qs =>
    let unanswered := (qs.filter fun q => !pyTruthyStr q.answer).map fun q => q.id
    if unanswered.isEmpty then
      let qs2 := qs.map (applyAnswerAnalysis oracle)
      let overall := analyze_complete_interview qs2 aggAI
      ({ iv with
         ai_questions := some qs2
         ai_responses := some (qs2.map fun q => (q.id, q.answer, q.score.getD 0))
         ai_analysis := some overall
         ai_score := some (overall.percentage.getD 0)
         interview_status := "completed"
         completed_at := some now
         updated_at := some now },
       .done (overall.percentage.getD 0) overall.recommendation)
    else (iv, .incomplete unanswered)

/-- The verified-access session record stored in the cache. -/
structure SessionData where
  email : String
  ip_address : String
  verified_at : Nat
  violations : Nat
deriving DecidableEq

/-- The cache and log state consulted by the verify-access route for
one (interview, ip) pair: the failed-attempt counter (0 for an absent
key), the bound device ip, the session record, and the appended
security events. The cache is modelled inside its 5-minute and 24-hour
windows: every failed attempt refreshes the counter expiry, so no key
expires during the scenarios quantified here. -/
structure VerifyState where
  attempts : Nat
  device : Option String := none
  session : Option SessionData := none
  events : List String := []
deriving DecidableEq

/-- Outcome of the verify-access route. -/
inductive VerifyOutcome where
  | ok
  | badRequest
  | rateLimited
  | invalidEmail
  | invalidCode
deriving DecidableEq

/-- Embedding of the verify-access route for an existing interview and
resume: missing credentials are a bad request; a counter at 5 or more
is rejected before any credential check; a wrong email or a wrong or
falsy stored access code increments the counter; success logs a
multi-device event when a different ip was bound, binds the current
ip, clears the counter and stores a fresh session. -/
def verify_access (st : VerifyState) (access_code : Option String) (resume_email : String)
    (input_email input_code ip : String) (now : Nat) : VerifyState × VerifyOutcome :=
  let email := String.mk (pyLower (pyStrip input_email.toList))
  let code := String.mk (pyUpper (pyStrip input_code.toList))
  if email == "" || code == "" then (st, .badRequest)
  else if 5 ≤ st.attempts then (st, .rateLimited)
  else if String.mk (pyLower (pyStrip resume_email.toList)) != email then
    ({ st with attempts := st.attempts + 1 }, .invalidEmail)
  else if (match access_code with
           | none => true
           | some s => s == "" || s != code) then
    ({ st with attempts := st.attempts + 1 }, .invalidCode)
  else
    let st1 :=
      match st.device with
      | some oldIp =>
        if oldIp != ip then { st with events := st.events ++ ["multi_device_detected"] }
        else st
      | none => st
    ({ st1 with
       device := some ip
       attempts := 0
       session := some { email := email, ip_address := ip, verified_at := now, violations := 0 } },
     .ok)

/-- A question with every optional key absent, used to build concrete
test states. -/
def blankQuestion : Question := { id := 0 }

/-- Concrete completed interview with one answered question. -/
def completedInterviewEx : Interview :=
  { interview_status := "completed"
    ai_questions := some [{ blankQuestion with id := 1, question := "Q1", answer := some "first" }] }

/-- Concrete pending interview with one unanswered question. -/
def pendingInterviewEx : Interview :=
  { interview_status := "pending"
    ai_questions := some [{ blankQuestion with id := 1, question := "Q1" }] }

/-- Concrete question set of the spec scenario: three questions, the
third without an answer. -/
def threeQuestions : List Question :=
  [ { blankQuestion with id := 1, question := "Q1", answer := some "a1", max_score := some 20 },
    { blankQuestion with id := 2, question := "Q2", answer := some "a2", max_score := some 20 },
    { blankQuestion with id := 3, question := "Q3", max_score := some 20 } ]

/-- Concrete in-progress interview holding the scenario questions. -/
def incompleteInterviewEx : Interview :=
  { interview_status := "in_progress", ai_questions := some threeQuestions }

/-- Concrete question carrying expected points. -/
def secretQuestion : Question :=
  { blankQuestion with id := 1, question := "Q1", expected_points := some ["alpha", "beta"] }

/-- Concrete interview holding the question with expected points. -/
def secretInterviewEx : Interview :=
  { interview_status := "pending", ai_questions := some [secretQuestion] }

/-- The response the get-questions route computes on that interview. -/
def strippedResp : QuestionsResp :=
  { interview_status := "pending"
    questions := [{ secretQuestion with expected_points := none }]
    total_questions := 1 }

/-- Concrete answered question whose stored score is 0. -/
def zeroScoredQuestion : Question :=
  { blankQuestion with
    id := 1
    question := "Q1"
    answer := some "a"
    score := some 0
    max_score := some 20 }

/-- Concrete completed interview holding the zero-scored question. -/
def completedZeroInterviewEx : Interview :=
  { interview_status := "completed", ai_questions := some [zeroScoredQuestion] }

/-- A per-answer analysis oracle always returning score 5. -/
def rescoreOracle : Question → Option AnswerAnalysis := fun _ => some { score := some 5 }

/-- A per-answer analysis oracle whose every call raises. -/
def noAnalysisOracle : Question → Option AnswerAnalysis := fun _ => none

/-- Concrete answered question pair, the first already scored. -/
def twoQuestions : List Question :=
  [ { blankQuestion with
      id := 1
      question := "Q1"
      answer := some "a1"
      score := some 10
      max_score := some 20 },
    { blankQuestion with id := 2, question := "Q2", answer := some "a2", max_score := some 20 } ]

/-- Concrete completed interview holding the answered pair. -/
def completedTwoInterviewEx : Interview :=
  { interview_status := "completed", ai_questions := some twoQuestions }

/-- Concrete question scored 18 of 20, ninety percent. -/
def highQuestion : Question :=
  { blankQuestion with id := 1, score := some 18, max_score := some 20 }

/-- Concrete question scored 10 of 20, fifty percent. -/
def halfQuestion : Question :=
  { blankQuestion with id := 1, score := some 10, max_score := some 20 }

end AIInterviews

namespace Resumes

/-!
Embedding of the processing orchestrator of routes/resumes.py
(process_resume, lines 257 to 298; process_resume_public shares the
identical status logic). The resume and job lookups are assumed found,
since the claims quantify over existing resumes and the early return
on a missing row changes nothing. The parse result is an Option, none
standing for a raised extraction exception, the representative failure
of the try body; the scoring strategy is a function parameter covering
the rule-based scorer as well as the AI strategy with its fallback.
-/

/-- The resume row fields touched by the orchestrator. -/
structure Resume where
  processing_status : String
  candidate_name : Option String := none
  email : Option String := none
  phone : Option String := none
  location : Option String := none
  experience_years : Option ℚ := none
  education_level : Option String := none
  ai_score : Option ℚ := none
  matched_skills : Option (List String) := none
  missing_skills : Option (List String) := none
deriving DecidableEq

/-- Result of one orchestrator invocation: the final row, the
processing_status values committed in order, and whether the
extraction and the scoring ran. -/
structure ProcOutcome where
  resume : Resume
  commits : List String
  ranParsing : Bool
  ranScoring : Bool
deriving DecidableEq

/-- Embedding of process_resume: the status is set to processing and
committed unconditionally, with no re-check of the current value; then
extraction runs, and either the parsed fields and the scoring results
are written with status completed, or the exception path commits
status failed. -/
def process_resume (r : Resume) (parsed : Option AIScorer.ParsedData)
    (scorer : AIScorer.ParsedData → AIScorer.ScoreResult) : ProcOutcome :=
  match parsed with
  | none =>
    { resume := { r with processing_status := "failed" }
      commits := ["processing", "failed"], ranParsing := true, ranScoring := false }
  | some p =>
    let sc := scorer p
    { resume :=
        { r with
          candidate_name := p.name
          email := p.email
          phone := p.phone
          location := p.location
          experience_years := some p.experience_years
          education_level := some p.education_level
          ai_score := some sc.score
          matched_skills := some sc.matched_skills
          missing_skills := some sc.missing_skills
          processing_status := "completed" }
      commits := ["processing", "completed"], ranParsing := true, ranScoring := true }

/-- Concrete parse result with every field defaulted. -/
def parsedEx : AIScorer.ParsedData := { }

/-- Concrete resume row that already finished processing. -/
def completedResumeEx : Resume := { processing_status := "completed" }

/-- The rule-based strategy against an unconstrained job. -/
def plainScorer : AIScorer.ParsedData → AIScorer.ScoreResult :=
  fun p => AIScorer.rule_based_score p { }

end Resumes

end HireLens

/-!
Theorems. Each claim of the specification is settled below; shared
helper lemmas come first inside each namespace.
-/

namespace HireLens

namespace ResumeParser

/-- A list starts with itself before any suffix. -/
theorem startsWithList_self_append (p rest : List Char) :
    startsWithList p (p ++ rest) = true := by
  induction p with
  | nil => rfl
  | cons c cs ih => simp [startsWithList, ih]

/-- The anchored pattern matches at the start of its own occurrence
when both of its edge characters are word characters and both
neighbours are not. -/
theorem matchesWwAt_of_edges (p b : List Char) (prev : Option Char)
    (hhead : optWord p.head? = true) (hlast : optWord p.getLast? = true)
    (hprev : optWord prev = false) (hb : optWord b.head? = false) :
    matchesWwAt p prev (p ++ b) = true := by
  unfold matchesWwAt boundaryB
  rw [startsWithList_self_append, List.drop_left]
  simp [hhead, hlast, hprev, hb]

/-- The scan succeeds as soon as the current position matches. -/
theorem wwSearchAux_of_matches (p : List Char) (prev : Option Char) (s : List Char)
    (h : matchesWwAt p prev s = true) : wwSearchAux p prev s = true := by
  cases s with
  | nil => simpa [wwSearchAux] using h
  | cons c rest => simp [wwSearchAux, h]

/-- The scan finds an occurrence placed after any prefix whose last
character is not a word character. -/
theorem wwSearchAux_finds (p b : List Char)
    (hhead : optWord p.head? = true) (hlast : optWord p.getLast? = true)
    (hb : optWord b.head? = false) :
    ∀ (a : List Char) (prev : Option Char),
      optWord a.getLast? = false → (a = [] → optWord prev = false) →
      wwSearchAux p prev (a ++ (p ++ b)) = true := by
  intro a
  induction a with
  | nil =>
    intro prev _ h2
    exact wwSearchAux_of_matches p prev (p ++ b)
      (matchesWwAt_of_edges p b prev hhead hlast (h2 rfl) hb)
  | cons c a ih =>
    intro prev h1 h2
    have step : wwSearchAux p prev ((c :: a) ++ (p ++ b)) =
        (matchesWwAt p prev ((c :: a) ++ (p ++ b)) ||
          wwSearchAux p (some c) (a ++ (p ++ b))) := by
      rfl
    rw [step]
    have h1b : optWord a.getLast? = false := by
      cases a with
      | nil => rfl
      | cons d as => rw [List.getLast?_cons_cons] at h1; exact h1
    have h2b : a = [] → optWord (some c) = false := by
      intro ha
      subst ha
      simpa using h1
    rw [ih (some c) h1b h2b]
    simp

/-- The boundary-anchored search succeeds on every text containing the
pattern as a whole word, provided the pattern starts and ends in word
characters. -/
theorem wwSearch_of_containsWholeWord (p text : List Char)
    (hhead : optWord p.head? = true) (hlast : optWord p.getLast? = true)
    (h : containsWholeWord p text) : wwSearch p text = true := by
  obtain ⟨a, b, rfl, ha, hb⟩ := h
  unfold wwSearch
  rw [List.append_assoc]
  exact wwSearchAux_finds p b hhead hlast hb a none ha (fun _ => rfl)

/-- A pattern whose first character is a word character cannot take
the raw-regex branch, so a successful boundary search makes the
pattern hit. -/
theorem skillPatternHit_of_ww (p : List Char) (lt : List Char)
    (hhead : optWord p.head? = true) (hww : wwSearch p lt = true) :
    skillPatternHit p lt = true := by
  unfold skillPatternHit
  have hne : ¬ (p.take 2 = ['\\', 'b']) := by
    intro hbad
    have hh : p.head? = some '\\' := by
      cases p with
      | nil => simp at hbad
      | cons c cs =>
        simp [List.take] at hbad
        simp [hbad.1]
    rw [hh] at hhead
    simp [optWord, isWordChar] at hhead
  rw [if_neg hne]
  exact hww

/-- A taxonomy entry with a hitting pattern contributes its canonical
name to the found list. -/
theorem mem_foundSkillsList (name : String) (pats : List String) (p : String)
    (lt : List Char)
    (hentry : (name, pats) ∈ skill_patterns) (hp : p ∈ pats)
    (hhit : skillPatternHit p.toList lt = true) :
    name ∈ foundSkillsList lt := by
  unfold foundSkillsList
  rw [List.mem_filterMap]
  refine ⟨(name, pats), hentry, ?_⟩
  have hany : pats.any (fun q => skillPatternHit q.toList lt) = true :=
    List.any_eq_true.mpr ⟨p, hp, hhit⟩
  rw [hany]
  simp

/-- Keeping the first component of the entries passing a guard yields
a sublist of all first components. -/
theorem filterMap_guard_sublist {α β : Type} (L : List (α × β)) (c : α × β → Bool) :
    List.Sublist (L.filterMap fun e => if c e then some e.1 else none)
      (L.map Prod.fst) := by
  induction L with
  | nil => simp
  | cons e es ih =>
    simp only [List.filterMap_cons, List.map_cons]
    by_cases hc : c e = true
    · rw [hc]
      simpa using ih.cons₂ e.1
    · rw [Bool.not_eq_true] at hc
      rw [hc]
      simpa using ih.cons e.1

/-- The canonical names of the taxonomy are pairwise distinct. -/
theorem skillNames_nodup : (skill_patterns.map Prod.fst).Nodup := by decide

/-- The found list never repeats a canonical name. -/
theorem foundSkillsList_nodup (lt : List Char) : (foundSkillsList lt).Nodup :=
  List.Nodup.sublist (filterMap_guard_sublist skill_patterns _) skillNames_nodup

/-- Ordered insertion permutes to consing. -/
theorem insertStr_perm (x : String) (l : List String) :
    (insertStr x l).Perm (x :: l) := by
  induction l with
  | nil => rfl
  | cons y ys ih =>
    unfold insertStr
    by_cases h : strLeStr x y = true
    · rw [if_pos h]
    · rw [if_neg h]
      exact (ih.cons y).trans (List.Perm.swap x y ys)

/-- The sort is a permutation of its input. -/
theorem sortStrs_perm (l : List String) : (sortStrs l).Perm l := by
  induction l with
  | nil => rfl
  | cons x xs ih =>
    unfold sortStrs
    exact (insertStr_perm x (sortStrs xs)).trans (ih.cons x)

/-- C3 counterexample: the synonym c++ of the taxonomy entry C++
occurs as a whole word in the text c++, yet extraction misses it: the
regex boundary after the final plus sign requires a following word
character, so the escaped pattern can never match the synonym standing
alone. -/
theorem extract_skills_cpp_counterexample :
    ("C++", ["c++", "cpp", "cplusplus"]) ∈ skill_patterns ∧
    "c++" ∈ ["c++", "cpp", "cplusplus"] ∧
    containsWholeWord "c++".toList (pyLower "c++".toList) ∧
    "C++" ∉ extract_skills "c++" := by
  refine ⟨by decide, by decide, ⟨[], [], by decide, rfl, rfl⟩, ?_⟩
  have h : extract_skills "c++" = [] := by decide
  simp [h]

/-- C3, amended to the synonyms whose first and last characters are
word characters: for every such synonym of a taxonomy entry, any text
containing the synonym as a whole word (no word character adjacent on
either side, on the lowered text) yields the canonical skill name in
the extracted list exactly once, however many synonym mentions
occur. -/
theorem extract_skills_synonym_found_once (name : String) (pats : List String)
    (p : String) (text : String)
    (hentry : (name, pats) ∈ skill_patterns) (hp : p ∈ pats)
    (hhead : optWord p.toList.head? = true)
    (hlast : optWord p.toList.getLast? = true)
    (hocc : containsWholeWord p.toList (pyLower text.toList)) :
    (extract_skills text).count name = 1 := by
  unfold extract_skills
  rw [(sortStrs_perm _).count_eq]
  have hmem : name ∈ foundSkillsList (pyLower text.toList) :=
    mem_foundSkillsList name pats p _ hentry hp
      (skillPatternHit_of_ww _ _ hhead
        (wwSearch_of_containsWholeWord _ _ hhead hlast hocc))
  exact List.count_eq_one_of_mem (foundSkillsList_nodup _) hmem

/-- Witness for the amended C3 at the Python entry and the text
python. -/
theorem extract_skills_synonym_found_once_witness :
    (extract_skills "python").count "Python" = 1 :=
  extract_skills_synonym_found_once "Python" ["python", "py"] "python" "python"
    (by decide) (by decide) (by decide) (by decide)
    ⟨[], [], by decide, rfl, rfl⟩

/-- C4: the extractor takes the Python string max of the matched digit
strings, which is lexicographic rather than numeric. On the text with
the two matches 9 and 10 the extractor returns 9.0, although the
numerically largest matched figure is 10; the claim that the
numerically largest number wins fails on the code. -/
theorem extract_experience_years_string_max_eval :
    extract_experience_years "9 years and 10 years" = 9 ∧
    ['1', '0'] ∈ expMatches (pyLower "9 years and 10 years".toList) ∧
    floatOfGroup ['1', '0'] = 10 := by
  have hm : expMatchesAux (pyLower "9 years and 10 years".toList).length
      (pyLower "9 years and 10 years".toList) = [['9'], ['1', '0']] := by decide
  refine ⟨?_, ?_, ?_⟩
  · simp only [extract_experience_years, hm]
    have h1 : pyMaxStr [['9'], ['1', '0']] = ['9'] := by decide
    rw [h1]
    have h2 : List.takeWhile isDigitChar ['9'] = ['9'] := by decide
    have h3 : List.dropWhile isDigitChar ['9'] = [] := by decide
    have h4 : digitsToNat ['9'] = 9 := by decide
    have h5 : digitsToNat [] = 0 := by decide
    simp only [floatOfGroup, h2, h3, h4, h5]
    norm_num
  · simp only [expMatches, hm]
    decide
  · have h2 : List.takeWhile isDigitChar ['1', '0'] = ['1', '0'] := by decide
    have h3 : List.dropWhile isDigitChar ['1', '0'] = [] := by decide
    have h4 : digitsToNat ['1', '0'] = 10 := by decide
    have h5 : digitsToNat [] = 0 := by decide
    simp only [floatOfGroup, h2, h3, h4, h5]
    norm_num

end ResumeParser

end HireLens

namespace HireLens

namespace AIScorer

/-- C5: for every combination of extracted candidate fields and job
requirements, including zero experience, an empty required-skills list
and empty skill sets on both sides, the rule-based score lies in the
closed interval from 0 to 100. -/
theorem rule_based_score_in_range (parsed : ParsedData) (job : JobRec) :
    0 ≤ (rule_based_score parsed job).score ∧ (rule_based_score parsed job).score ≤ 100 := by
  obtain ⟨s0, s50⟩ : 0 ≤ skillsPoints parsed job ∧ skillsPoints parsed job ≤ 50 := by
    unfold skillsPoints
    cases h : job.skills_required with
    | nil => norm_num
    | cons a l =>
      constructor
      · positivity
      · have hm : ((matchedSkills parsed job).length : ℚ) ≤ ((a :: l).length : ℚ) := by
          have hlen := List.length_filter_le (skillMatchPred parsed) job.skills_required
          rw [h] at hlen
          exact_mod_cast (by simpa [matchedSkills, h] using hlen)
        have hdiv : ((matchedSkills parsed job).length : ℚ) / ((a :: l).length : ℚ) ≤ 1 :=
          div_le_one_of_le₀ hm (by positivity)
        nlinarith
  obtain ⟨e0, e30⟩ : 0 ≤ experiencePoints parsed job ∧ experiencePoints parsed job ≤ 30 := by
    unfold experiencePoints
    split_ifs <;> norm_num
  obtain ⟨d0, d10⟩ : 0 ≤ educationPoints parsed ∧ educationPoints parsed ≤ 10 := by
    unfold educationPoints
    split_ifs <;> norm_num
  obtain ⟨p0, p10⟩ : 0 ≤ projectPoints parsed ∧ projectPoints parsed ≤ 10 := by
    unfold projectPoints
    split_ifs <;> norm_num
  unfold rule_based_score
  constructor
  · exact le_min (by linarith) (by norm_num)
  · exact min_le_right _ _

end AIScorer

namespace AIInterviews

/-- C1 counterexample: on a completed interview with one answered
question, a fresh answer submission succeeds and moves
interview_status backwards to in_progress; the route has no status
guard, refuting both monotonicity and the never-on-completed rule. -/
theorem submit_answer_on_completed_counterexample :
    completedInterviewEx.interview_status = "completed" ∧
    (submit_answer completedInterviewEx 1 "second" 9).2 = .ok 1 ∧
    (submit_answer completedInterviewEx 1 "second" 9).1.interview_status = "in_progress" :=
  ⟨rfl, rfl, rfl⟩

/-- C1, amended: submit_answer never consults interview_status.
Whenever the interview holds questions, the id names a stored question
and the answer is non-empty after stripping, the submission succeeds
and sets interview_status to in_progress, whatever the previous status
was; in particular a completed session moves back to in_progress, so
the status is not monotonic. -/
theorem submit_answer_ignores_status (iv : Interview) (qs : List Question) (qid : Nat)
    (raw : String) (now : Nat)
    (hqs : iv.ai_questions = some qs)
    (hqid : qid ≠ 0)
    (hans : String.mk (pyStrip raw.toList) ≠ "")
    (hmem : (qs.any fun q => q.id == qid) = true) :
    (submit_answer iv qid raw now).2 = .ok qid ∧
    (submit_answer iv qid raw now).1.interview_status = "in_progress" := by
  simp only [String.toList] at hans
  simp [submit_answer, String.toList, hqs, hqid, hans, hmem]

/-- Witness for the amended C1 on a pending interview. -/
theorem submit_answer_ignores_status_witness :
    (submit_answer pendingInterviewEx 1 "hello" 5).2 = .ok 1 ∧
    (submit_answer pendingInterviewEx 1 "hello" 5).1.interview_status = "in_progress" :=
  submit_answer_ignores_status pendingInterviewEx
    [{ blankQuestion with id := 1, question := "Q1" }] 1 "hello" 5 rfl
    (by decide) (by decide) (by decide)

/-- C6 counterexample: a single question scored 18 of 20 gives a raw
percentage of 90; the stated bands demand STRONG_HIRE there, yet the
fallback of the aggregate-analysis failure path returns MAYBE, since
it only ever distinguishes the fifty percent line. -/
theorem fallback_recommendation_counterexample :
    (analyze_complete_interview [highQuestion] none).recommendation = some "MAYBE" ∧
    specRecommendationBands (percentage [highQuestion]) = "STRONG_HIRE" := by
  have hp : percentage [highQuestion] = 90 := by
    norm_num [percentage, totalScore, maxPossible, highQuestion, blankQuestion]
  constructor
  · simp only [analyze_complete_interview, fallbackRecommendation, hp]
    norm_num
  · simp only [specRecommendationBands, hp]
    norm_num

/-- C6, amended: when the aggregate call fails entirely the fallback
recommendation is MAYBE from fifty percent up and NO_HIRE below, never
any other label; it therefore agrees with the stated threshold bands
exactly on the range below seventy percent. -/
theorem fallback_recommendation_two_bands (qs : List Question) :
    (percentage qs < 70 →
      (analyze_complete_interview qs none).recommendation =
        some (specRecommendationBands (percentage qs))) ∧
    ((analyze_complete_interview qs none).recommendation = some "MAYBE" ∨
      (analyze_complete_interview qs none).recommendation = some "NO_HIRE") := by
  constructor
  · intro h70
    simp only [analyze_complete_interview, fallbackRecommendation, specRecommendationBands]
    have h85 : ¬ (85 ≤ percentage qs) := by linarith
    have h70b : ¬ (70 ≤ percentage qs) := by linarith
    rw [if_neg h85, if_neg h70b]
  · simp only [analyze_complete_interview, fallbackRecommendation]
    by_cases h50 : 50 ≤ percentage qs
    · left; rw [if_pos h50]
    · right; rw [if_neg h50]

/-- Witness for the amended C6 at fifty percent. -/
theorem fallback_recommendation_two_bands_witness :
    (analyze_complete_interview [halfQuestion] none).recommendation =
      some (specRecommendationBands (percentage [halfQuestion])) := by
  have hp : percentage [halfQuestion] = 50 := by
    norm_num [percentage, totalScore, maxPossible, halfQuestion, blankQuestion]
  exact (fallback_recommendation_two_bands [halfQuestion]).1 (by rw [hp]; norm_num)

/-- The verify-access route reaches exactly one of three shapes: state
unchanged with a bad request or throttling outcome, counter
incremented with an invalid-credential outcome, or counter cleared
with a fresh session on success. -/
theorem verify_access_shape (st : VerifyState) (ac : Option String)
    (re ie ic ip : String) (now : Nat) :
    (∃ o, verify_access st ac re ie ic ip now = (st, o) ∧
      (o = .badRequest ∨ o = .rateLimited)) ∨
    (∃ o, verify_access st ac re ie ic ip now =
      ({ st with attempts := st.attempts + 1 }, o) ∧
      (o = .invalidEmail ∨ o = .invalidCode)) ∨
    (∃ sd ev, verify_access st ac re ie ic ip now =
      ({ attempts := 0, device := some ip, session := some sd, events := ev }, .ok)) := by
  simp only [verify_access]
  split_ifs with h1 h2 h3 h4
  · exact .inl ⟨_, rfl, .inl rfl⟩
  · exact .inl ⟨_, rfl, .inr rfl⟩
  · exact .inr (.inl ⟨_, rfl, .inl rfl⟩)
  · exact .inr (.inl ⟨_, rfl, .inr rfl⟩)
  · exact .inr (.inr ⟨_, _, rfl⟩)

/-- C7: with the failed-attempt counter at five or more, any further
attempt from the same pair is rejected as rate limited before the
credentials are even read, whenever both credentials are supplied
non-empty; every invalid-credential outcome raises the counter by one,
and a successful verification clears it to zero. Five failures from a
fresh counter therefore reach five and lock the pair for the
window. -/
theorem verify_access_rate_limit_and_reset (st : VerifyState) (access_code : Option String)
    (resume_email input_email input_code ip : String) (now : Nat) :
    (String.mk (pyLower (pyStrip input_email.toList)) ≠ "" →
      String.mk (pyUpper (pyStrip input_code.toList)) ≠ "" →
      5 ≤ st.attempts →
      verify_access st access_code resume_email input_email input_code ip now =
        (st, .rateLimited)) ∧
    ((verify_access st access_code resume_email input_email input_code ip now).2 = .ok →
      (verify_access st access_code resume_email input_email input_code ip now).1.attempts = 0) ∧
    (((verify_access st access_code resume_email input_email input_code ip now).2 = .invalidEmail ∨
      (verify_access st access_code resume_email input_email input_code ip now).2 = .invalidCode) →
      (verify_access st access_code resume_email input_email input_code ip now).1.attempts =
        st.attempts + 1) := by
  refine ⟨?_, ?_, ?_⟩
  · intro he hc h5
    simp only [String.toList] at he hc
    simp [verify_access, String.toList, he, hc, h5]
  · intro hok
    rcases verify_access_shape st access_code resume_email input_email input_code ip now with
      ⟨o, heq, ho⟩ | ⟨o, heq, ho⟩ | ⟨sd, ev, heq⟩
    · rw [heq] at hok
      rcases ho with rfl | rfl <;> simp at hok
    · rw [heq] at hok
      rcases ho with rfl | rfl <;> simp at hok
    · rw [heq]
  · intro hfail
    rcases verify_access_shape st access_code resume_email input_email input_code ip now with
      ⟨o, heq, ho⟩ | ⟨o, heq, ho⟩ | ⟨sd, ev, heq⟩
    · rw [heq] at hfail
      rcases ho with rfl | rfl <;> rcases hfail with h | h <;> simp at h
    · rw [heq]
    · rw [heq] at hfail
      rcases hfail with h | h <;> simp at h

/-- Witness for C7: a counter at five rejects correct credentials as
rate limited, and a successful verification at counter three clears
the counter. -/
theorem verify_access_rate_limit_and_reset_witness :
    verify_access ⟨5, none, none, []⟩ (some "ABC123") "a@b.com" "a@b.com" "abc123" "1.2.3.4" 0 =
      (⟨5, none, none, []⟩, .rateLimited) ∧
    (verify_access ⟨3, none, none, []⟩ (some "ABC123") "a@b.com" "a@b.com" "abc123"
      "1.2.3.4" 0).1.attempts = 0 := by
  constructor
  · exact (verify_access_rate_limit_and_reset ⟨5, none, none, []⟩ (some "ABC123")
      "a@b.com" "a@b.com" "abc123" "1.2.3.4" 0).1 (by decide) (by decide) (by decide)
  · exact (verify_access_rate_limit_and_reset ⟨3, none, none, []⟩ (some "ABC123")
      "a@b.com" "a@b.com" "abc123" "1.2.3.4" 0).2.1 (by decide)

/-- C8: when at least one stored question carries a falsy answer, the
complete route fails, the interview row is returned unchanged, and the
reported list holds exactly the ids of the questions without an
answer. -/
theorem complete_interview_incomplete_exact_ids
    (iv : Interview) (qs : List Question) (oracle : Question → Option AnswerAnalysis)
    (agg : Option AggAI) (now : Nat)
    (hqs : iv.ai_questions = some qs)
    (hun : (qs.any fun q => !pyTruthyStr q.answer) = true) :
    complete_interview iv oracle agg now =
      (iv, .incomplete ((qs.filter fun q => !pyTruthyStr q.answer).map fun q => q.id)) ∧
    ∀ i : Nat, (i ∈ (qs.filter fun q => !pyTruthyStr q.answer).map fun q => q.id) ↔
      ∃ q ∈ qs, q.id = i ∧ pyTruthyStr q.answer = false := by
  have hne : ((qs.filter fun q => !pyTruthyStr q.answer).map fun q => q.id).isEmpty = false := by
    rcases List.any_eq_true.mp hun with ⟨q, hq, hqf⟩
    have hmem : q.id ∈ (qs.filter fun q => !pyTruthyStr q.answer).map fun q => q.id :=
      List.mem_map_of_mem _ (List.mem_filter.mpr ⟨hq, hqf⟩)
    cases h : ((qs.filter fun q => !pyTruthyStr q.answer).map fun q => q.id).isEmpty
    · rfl
    · rw [List.isEmpty_iff] at h
      rw [h] at hmem
      cases hmem
  constructor
  · simp only [complete_interview, hqs, hne]
    simp
  · intro i
    constructor
    · intro hi
      rcases List.mem_map.mp hi with ⟨q, hqf, rfl⟩
      rcases List.mem_filter.mp hqf with ⟨hq, hf⟩
      exact ⟨q, hq, rfl, by simpa using hf⟩
    · rintro ⟨q, hq, rfl, hf⟩
      exact List.mem_map_of_mem _ (List.mem_filter.mpr ⟨hq, by simpa using hf⟩)

/-- Witness for C8 on the spec scenario: three questions, two
answered, completion fails listing exactly question three and the row
is unchanged. -/
theorem complete_interview_incomplete_exact_ids_witness :
    complete_interview incompleteInterviewEx noAnalysisOracle none 0 =
      (incompleteInterviewEx,
        .incomplete ((threeQuestions.filter fun q => !pyTruthyStr q.answer).map fun q => q.id)) ∧
    (threeQuestions.filter fun q => !pyTruthyStr q.answer).map (fun q => q.id) = [3] :=
  ⟨(complete_interview_incomplete_exact_ids incompleteInterviewEx threeQuestions
      noAnalysisOracle none 0 rfl (by decide)).1, by decide⟩

/-- C9: for every interview with stored questions, every question in
the get-questions response has its expected_points key absent. -/
theorem get_questions_strips_expected_points
    (iv : Interview) (qs : List Question)
    (hqs : iv.ai_questions = some qs)
    (resp : QuestionsResp)
    (hresp : get_questions iv = .ok resp) :
    ∀ q ∈ resp.questions, q.expected_points = none := by
  unfold get_questions at hresp
  rw [hqs] at hresp
  simp only [GetQuestionsOutcome.ok.injEq] at hresp
  subst hresp
  intro q hq
  simp only [List.mem_map] at hq
  rcases hq with ⟨q0, _, rfl⟩
  rfl

/-- Witness for C9 on an interview whose stored question carries
expected points. -/
theorem get_questions_strips_expected_points_witness :
    ({ secretQuestion with expected_points := none } : Question).expected_points = none :=
  get_questions_strips_expected_points secretInterviewEx [secretQuestion] rfl strippedResp rfl
    { secretQuestion with expected_points := none } (by simp [strippedResp])

/-- C10 counterexample: on a completed interview whose single question
carries the stored score 0, completion is not skipped for that
question: the score 0 is falsy, so the per-question analysis runs
again and overwrites the stored fields, refuting the part of the claim
that says analysis is skipped for every question that already has a
score. -/
theorem complete_reanalyzes_zero_score_counterexample :
    completedZeroInterviewEx.interview_status = "completed" ∧
    zeroScoredQuestion.score = some 0 ∧
    (complete_interview completedZeroInterviewEx rescoreOracle none 7).1.ai_questions =
      some [{ zeroScoredQuestion with
              score := some 5
              feedback := some ""
              covered_points := some []
              missed_points := some []
              strengths := some []
              improvements := some [] }] ∧
    (complete_interview completedZeroInterviewEx rescoreOracle none 7).1.ai_questions ≠
      some [zeroScoredQuestion] := by
  refine ⟨rfl, rfl, rfl, ?_⟩
  intro h
  simp only [show (complete_interview completedZeroInterviewEx rescoreOracle
      none 7).1.ai_questions =
      some [{ zeroScoredQuestion with
              score := some 5
              feedback := some ""
              covered_points := some []
              missed_points := some []
              strengths := some []
              improvements := some [] }] from rfl] at h
  exact absurd h (by decide)

/-- C10, amended: the complete route has no status guard, so on a
completed interview whose questions all carry truthy answers it
succeeds again: per-question analysis is skipped exactly for the
questions whose stored score is truthy (present and non-zero, a
question scored 0 is re-analysed), the aggregate analysis is invoked
again, and ai_questions, ai_responses, ai_analysis, ai_score,
completed_at and updated_at are overwritten with fresh values. -/
theorem complete_on_completed_overwrites
    (iv : Interview) (qs : List Question) (oracle : Question → Option AnswerAnalysis)
    (agg : Option AggAI) (now : Nat)
    (_hst : iv.interview_status = "completed")
    (hqs : iv.ai_questions = some qs)
    (hans : (qs.all fun q => pyTruthyStr q.answer) = true) :
    complete_interview iv oracle agg now =
      ({ iv with
         ai_questions := some (qs.map (applyAnswerAnalysis oracle))
         ai_responses := some ((qs.map (applyAnswerAnalysis oracle)).map fun q =>
           (q.id, q.answer, q.score.getD 0))
         ai_analysis := some (analyze_complete_interview (qs.map (applyAnswerAnalysis oracle)) agg)
         ai_score := some ((analyze_complete_interview (qs.map (applyAnswerAnalysis oracle))
           agg).percentage.getD 0)
         interview_status := "completed"
         completed_at := some now
         updated_at := some now },
       .done ((analyze_complete_interview (qs.map (applyAnswerAnalysis oracle)) agg).percentage.getD 0)
         (analyze_complete_interview (qs.map (applyAnswerAnalysis oracle)) agg).recommendation) ∧
    ∀ q ∈ qs, pyTruthyNum q.score = true → applyAnswerAnalysis oracle q = q := by
  have hemp : ((qs.filter fun q => !pyTruthyStr q.answer).map fun q => q.id).isEmpty = true := by
    have hnil : qs.filter (fun q => !pyTruthyStr q.answer) = [] := by
      rw [List.filter_eq_nil_iff]
      intro q hq
      simp [List.all_eq_true.mp hans q hq]
    rw [hnil]
    rfl
  constructor
  · simp only [complete_interview, hqs, hemp]
    simp
  · intro q _ hsc
    unfold applyAnswerAnalysis
    rw [hsc]
    rfl

/-- Witness for the amended C10 on a completed two-question interview,
one question scored, with every analysis call failing. -/
theorem complete_on_completed_overwrites_witness :
    complete_interview completedTwoInterviewEx noAnalysisOracle none 3 =
      ({ completedTwoInterviewEx with
         ai_questions := some (twoQuestions.map (applyAnswerAnalysis noAnalysisOracle))
         ai_responses := some ((twoQuestions.map (applyAnswerAnalysis noAnalysisOracle)).map fun q =>
           (q.id, q.answer, q.score.getD 0))
         ai_analysis := some (analyze_complete_interview
           (twoQuestions.map (applyAnswerAnalysis noAnalysisOracle)) none)
         ai_score := some ((analyze_complete_interview
           (twoQuestions.map (applyAnswerAnalysis noAnalysisOracle)) none).percentage.getD 0)
         interview_status := "completed"
         completed_at := some 3
         updated_at := some 3 },
       .done ((analyze_complete_interview
           (twoQuestions.map (applyAnswerAnalysis noAnalysisOracle)) none).percentage.getD 0)
         (analyze_complete_interview
           (twoQuestions.map (applyAnswerAnalysis noAnalysisOracle)) none).recommendation) :=
  (complete_on_completed_overwrites completedTwoInterviewEx twoQuestions noAnalysisOracle
    none 3 rfl rfl (by decide)).1

end AIInterviews

namespace Resumes

/-- C2 counterexample: a second trigger on a resume that already
completed processing runs the whole pipeline again: the first commit
moves processing_status backwards from completed to processing, and
extraction and scoring re-run, refuting the claimed defensive
re-check. -/
theorem process_resume_on_completed_counterexample :
    completedResumeEx.processing_status = "completed" ∧
    (process_resume completedResumeEx (some parsedEx) plainScorer).commits =
      ["processing", "completed"] ∧
    (process_resume completedResumeEx (some parsedEx) plainScorer).ranParsing = true ∧
    (process_resume completedResumeEx (some parsedEx) plainScorer).ranScoring = true :=
  ⟨rfl, rfl, rfl, rfl⟩

/-- C2, amended: the orchestrator never re-checks processing_status.
Every invocation on an existing resume and job first commits
processing and then commits completed or failed according to the
outcome of the body, re-running extraction unconditionally; a second
trigger on a processing or completed resume therefore re-processes it
and moves the status backwards, while within a single invocation the
commit order is the forward pending to processing to terminal
sequence. -/
theorem process_resume_no_status_recheck (r : Resume) (parsed : Option AIScorer.ParsedData)
    (scorer : AIScorer.ParsedData → AIScorer.ScoreResult) :
    (process_resume r parsed scorer).commits =
      ["processing", if parsed.isSome then "completed" else "failed"] ∧
    (process_resume r parsed scorer).ranParsing = true := by
  cases parsed <;> simp [process_resume]

end Resumes

end HireLens
